import Mathlib

/-!
Verification of the token lifecycle, authorization middleware and content-save
pipeline of a MERN content-publishing API.

The development shallowly embeds the JavaScript sources:
  * `server/src/utils/auth.js`        (JWT helpers)
  * `server/src/middleware/auth.js`   (authenticate / authorize middleware)
  * `server/src/models/Post.js`       (pre-save hooks and counter methods)

JavaScript strings that the code actually parses (headers, titles, slugs,
content) are modelled as `List Char` (`JsStr`), so the splitting functions can
be analysed by structural induction.  Fields that are only ever compared for
equality (emails, roles, response bodies) stay as Lean `String`s.  Absent /
`undefined` JavaScript values are `Option.none`; JSON serialisation drops
`undefined` fields, which the `Option` claims model directly.  Times are Unix
seconds (`Nat`).
-/

set_option maxRecDepth 4000

namespace MernAuth

instance {ε α} [DecidableEq ε] [DecidableEq α] : DecidableEq (Except ε α) := fun x y =>
  match x, y with
  | .ok a, .ok b =>
    if h : a = b then isTrue (by rw [h]) else isFalse (by intro hc; cases hc; exact h rfl)
  | .error e, .error f =>
    if h : e = f then isTrue (by rw [h]) else isFalse (by intro hc; cases hc; exact h rfl)
  | .ok _, .error _ => isFalse (by intro hc; cases hc)
  | .error _, .ok _ => isFalse (by intro hc; cases hc)

/-- JavaScript string modelled as its character list. -/
abbrev JsStr := List Char

/-! ## Token codec (`server/src/utils/auth.js`) -/

/-- JWT payload as produced / consumed by `jsonwebtoken`.  Every field may be
absent, exactly as a dynamic JS object. -/
structure JwtClaims where
  id : Option String
  email : Option String
  username : Option String
  role : Option String
  iat : Option Nat
  exp : Option Nat
  iss : Option String
  aud : Option String
deriving DecidableEq, Repr

/-- A structurally well-formed signed token: its payload plus the secret it was
signed with (signature validity is modelled as equality of secrets). -/
structure SignedToken where
  claims : JwtClaims
  secret : String
deriving DecidableEq, Repr

/-- A JWT string: either it parses to a signed token or it is garbage
(`jwt.decode` returns `null`). -/
abbrev JwtInput := Option SignedToken

/-- `const JWT_SECRET = process.env.JWT_SECRET || 'your-secret-key'`
(documented default). -/
def jwtSecret : String := "your-secret-key"

/-- `JWT_EXPIRES_IN = '7d'` expressed in seconds. -/
def jwtExpiresInSec : Nat := 7 * 24 * 60 * 60

/-- Argument object of `generateToken(user)`.  The function reads `user._id`;
the `id` field exists on the object passed by `refreshToken` but is never read
by `generateToken` (that is the refresh slip). -/
structure UserArg where
  _idField : Option String := none
  idField : Option String := none
  email : Option String := none
  username : Option String := none
  role : Option String := none
deriving DecidableEq, Repr

/-- `generateToken` (auth.js lines 12-33): signs
`{id: user._id, email, username, role}` with issuer/audience constants and
`exp = now + JWT_EXPIRES_IN`.  `jwt.sign` also stamps `iat = now`. -/
def generateToken (u : UserArg) (now : Nat) : SignedToken :=
  { claims :=
      { id := u._idField
        email := u.email
        username := u.username
        role := u.role
        iat := some now
        exp := some (now + jwtExpiresInSec)
        iss := some "mern-testing-app"
        aud := some "mern-testing-users" }
    secret := jwtSecret }

/-- `verifyToken` (auth.js lines 40-49): `jwt.verify(token, JWT_SECRET)`
checks the signature and, when an `exp` claim is present, that the clock is
still before it; any failure is collapsed to the one error `'Invalid token'`.
(No `issuer`/`audience` options are passed, so those claims are not checked.) -/
def verifyToken (t : SignedToken) (now : Nat) : Except String JwtClaims :=
  if t.secret = jwtSecret ∧ (∀ e, t.claims.exp = some e → now < e) then
    .ok t.claims
  else
    .error "Invalid token"

/-- `jwt.decode`: parses without verification, `null` on garbage. -/
def jwtDecode (tok : JwtInput) : Option JwtClaims :=
  tok.map SignedToken.claims

/-- `decodeToken` (auth.js lines 56-65) is `jwt.decode` with logging. -/
def decodeToken (tok : JwtInput) : Option JwtClaims :=
  jwtDecode tok

/-- `isTokenExpired` (auth.js lines 91-104): `true` when the payload does not
decode or `!decoded.exp` (absent — or `0`, which is falsy in JS); otherwise
`decoded.exp < Math.floor(Date.now() / 1000)`. -/
def isTokenExpired (tok : JwtInput) (now : Nat) : Bool :=
  match jwtDecode tok with
  | none => true
  | some d =>
    match d.exp with
    | none => true
    | some e => if e = 0 then true else decide (e < now)

/-- `getTokenExpiration` (auth.js lines 111-123). -/
def getTokenExpiration (tok : JwtInput) : Option Nat :=
  match jwtDecode tok with
  | none => none
  | some d =>
    match d.exp with
    | none => none
    | some e => if e = 0 then none else some e

/-- `refreshToken` (auth.js lines 130-145): decodes (no verification), strips
`iat`/`exp`/`aud`/`iss` by destructuring, and calls `generateToken` on the
remaining payload.  That rest-object carries the identity under the key `id`,
while `generateToken` reads `user._id` — which the rest-object does not have. -/
def refreshToken (tok : JwtInput) (now : Nat) : Except String SignedToken :=
  match jwtDecode tok with
  | none => .error "Token refresh failed"
  | some d =>
    .ok (generateToken
      { _idField := none
        idField := d.id
        email := d.email
        username := d.username
        role := d.role } now)

/-! ## Header extraction -/

inductive HeaderError where
  /-- `'Authorization header missing'` -/
  | missingHeader
  /-- `'Invalid authorization header format'` -/
  | malformedHeader
deriving DecidableEq, Repr

/-- JS `String.prototype.split(sep)` for a single-character separator:
empty segments are kept, `''.split(sep)` is `['']`. -/
def jsSplit (sep : Char) : JsStr → List JsStr
  | [] => [[]]
  | c :: cs =>
    match jsSplit sep cs with
    | [] => [[c]]
    | seg :: rest =>
      if c = sep then [] :: seg :: rest else (c :: seg) :: rest

/-- `extractTokenFromHeader` (auth.js lines 72-84): a falsy header (absent or
the empty string) is the missing-header error; otherwise the header is split
on `' '` and must be exactly `['Bearer', token]`. -/
def extractTokenFromHeader (authHeader : Option JsStr) : Except HeaderError JsStr :=
  match authHeader with
  | none => .error .missingHeader
  | some [] => .error .missingHeader
  | some s =>
    match jsSplit ' ' s with
    | [p0, p1] => if p0 = "Bearer".toList then .ok p1 else .error .malformedHeader
    | _ => .error .malformedHeader

/-! ### Facts about `jsSplit` -/

theorem jsSplit_ne_nil (sep : Char) (s : JsStr) : jsSplit sep s ≠ [] := by
  cases s with
  | nil => simp [jsSplit]
  | cons c cs =>
    rw [jsSplit]
    cases h : jsSplit sep cs with
    | nil => simp
    | cons seg rest =>
      by_cases hc : c = sep <;> simp [hc]

theorem jsSplit_singleton_iff (sep : Char) (s x : JsStr) :
    jsSplit sep s = [x] ↔ s = x ∧ sep ∉ x := by
  induction s generalizing x with
  | nil =>
    constructor
    · intro h
      simp only [jsSplit, List.cons.injEq, and_true] at h
      subst h
      simp
    · rintro ⟨rfl, -⟩
      simp [jsSplit]
  | cons c cs ih =>
    rw [jsSplit]
    cases h : jsSplit sep cs with
    | nil => exact absurd h (jsSplit_ne_nil sep cs)
    | cons seg rest =>
      by_cases hc : c = sep
      · subst hc
        simp only [if_pos rfl]
        constructor
        · intro hcontr
          simp at hcontr
        · rintro ⟨rfl, hmem⟩
          exact absurd (List.mem_cons_self c cs) hmem
      · simp only [if_neg hc]
        constructor
        · intro hcontr
          have hx : c :: seg = x ∧ rest = [] := by simpa using hcontr
          obtain ⟨hx, rfl⟩ := hx
          obtain ⟨rfl, hm⟩ := (ih seg).mp h
          refine ⟨hx, ?_⟩
          intro hmem
          rw [← hx] at hmem
          rcases List.mem_cons.mp hmem with h3 | h3
          · exact hc h3.symm
          · exact hm h3
        · rintro ⟨rfl, hmem⟩
          have hm : sep ∉ cs := fun hx => hmem (List.mem_cons_of_mem c hx)
          have h2 : seg :: rest = [cs] := h.symm.trans ((ih cs).mpr ⟨rfl, hm⟩)
          have h3 : seg = cs ∧ rest = [] := by simpa using h2
          obtain ⟨rfl, rfl⟩ := h3
          rfl

theorem jsSplit_pair_iff (sep : Char) (s a b : JsStr) :
    jsSplit sep s = [a, b] ↔ s = a ++ sep :: b ∧ sep ∉ a ∧ sep ∉ b := by
  induction s generalizing a with
  | nil =>
    constructor
    · intro h
      simp [jsSplit] at h
    · rintro ⟨h, -⟩
      exact absurd h (by simp)
  | cons c cs ih =>
    rw [jsSplit]
    cases h : jsSplit sep cs with
    | nil => exact absurd h (jsSplit_ne_nil sep cs)
    | cons seg rest =>
      by_cases hc : c = sep
      · subst hc
        simp only [if_pos rfl]
        constructor
        · intro hcontr
          have hx : [] = a ∧ seg :: rest = [b] := by simpa using hcontr
          obtain ⟨rfl, h2⟩ := hx
          obtain ⟨rfl, hm⟩ := (jsSplit_singleton_iff c cs b).mp (h.trans h2)
          exact ⟨rfl, by simp, hm⟩
        · rintro ⟨heq, hna, hnb⟩
          cases a with
          | nil =>
            simp only [List.nil_append, List.cons.injEq, true_and] at heq
            have h2 : seg :: rest = [b] :=
              h.symm.trans ((jsSplit_singleton_iff c cs b).mpr ⟨heq, hnb⟩)
            have h3 : seg = b ∧ rest = [] := by simpa using h2
            obtain ⟨rfl, rfl⟩ := h3
            rfl
          | cons a0 a' =>
            have h1 : c = a0 := by simpa using congrArg (fun l => l.head?) heq
            exact absurd (h1 ▸ List.mem_cons_self a0 a') hna
      · simp only [if_neg hc]
        constructor
        · intro hcontr
          have hx : c :: seg = a ∧ rest = [b] := by simpa using hcontr
          obtain ⟨hx, rfl⟩ := hx
          obtain ⟨heq, hns, hnb⟩ := (ih seg).mp h
          refine ⟨by rw [← hx, heq]; rfl, ?_, hnb⟩
          rw [← hx]
          intro hmem
          rcases List.mem_cons.mp hmem with h3 | h3
          · exact hc h3.symm
          · exact hns h3
        · rintro ⟨heq, hna, hnb⟩
          cases a with
          | nil =>
            simp only [List.nil_append, List.cons.injEq] at heq
            exact absurd heq.1 hc
          | cons a0 a' =>
            have h0 : c = a0 ∧ cs = a' ++ sep :: b := by simpa using heq
            obtain ⟨rfl, h2⟩ := h0
            have hna' : sep ∉ a' := fun hx => hna (List.mem_cons_of_mem c hx)
            have h3 : seg :: rest = [a', b] :=
              h.symm.trans ((ih a').mpr ⟨h2, hna', hnb⟩)
            have h4 : seg = a' ∧ rest = [b] := by simpa using h3
            obtain ⟨rfl, rfl⟩ := h4
            rfl

/-! ## Middleware (`server/src/middleware/auth.js`) -/

/-- A stored user document (`User` model) as the middleware reads it. -/
structure DbUser where
  _idField : String
  email : String
  username : String
  role : String
  isActive : Bool
deriving DecidableEq, Repr

/-- `User.findById(id)`: `none` when no document has the id (the middleware
passes `decoded.id`, which may itself be absent). -/
def findById (users : List DbUser) (oid : Option String) : Option DbUser :=
  match oid with
  | none => none
  | some i => users.find? (fun u => u._idField = i)

/-- Outcome of the `authenticate` middleware: an error response, or `next()`
with the user attached to the request. -/
inductive AuthenticateResult where
  | reject (status : Nat) (error : String)
  | accept (user : DbUser)
deriving DecidableEq, Repr

/-- `authenticate` (middleware/auth.js lines 9-39).  `decodeStr` stands for
`jwt`'s parsing of the extracted token string (`none` = not a structurally
valid JWT, which makes `jwt.verify` throw).  Thrown errors (extraction,
verification) land in the `catch` block and produce the generic 401
`'Authentication failed'`; the user-lookup failures return their own,
distinguishable 401 bodies. -/
def authenticate (decodeStr : JsStr → Option SignedToken) (now : Nat)
    (users : List DbUser) (authHeader : Option JsStr) : AuthenticateResult :=
  match extractTokenFromHeader authHeader with
  | .error _ => .reject 401 "Authentication failed"
  | .ok tokStr =>
    match decodeStr tokStr with
    | none => .reject 401 "Authentication failed"
    | some t =>
      match verifyToken t now with
      | .error _ => .reject 401 "Authentication failed"
      | .ok decoded =>
        match findById users decoded.id with
        | none => .reject 401 "User not found"
        | some user =>
          if user.isActive = false then
            .reject 401 "User account is deactivated"
          else
            .accept user

/-- The `roles` argument of `authorize`: a single role string or an array.
The JS default argument is the empty array. -/
inductive RolesArg where
  | one (r : String)
  | many (rs : List String)
deriving DecidableEq, Repr

/-- Outcome of the `authorize`-produced middleware. -/
inductive AuthorizeResult where
  | reject (status : Nat) (error : String)
  | allow
deriving DecidableEq, Repr

/-- `authorize(roles = [])` (middleware/auth.js lines 74-92): 401 when no
user is attached, 403 `'Insufficient permissions'` unless the user's role is
in the (normalised) role array. -/
def authorize (roles : RolesArg) (reqUser : Option DbUser) : AuthorizeResult :=
  match reqUser with
  | none => .reject 401 "Authentication required"
  | some user =>
    let requiredRoles := match roles with
      | .one r => [r]
      | .many rs => rs
    if user.role ∈ requiredRoles then .allow
    else .reject 403 "Insufficient permissions"

/-! ## Content pipeline (`server/src/models/Post.js`) -/

/-- Characters removed by the `remove: /[*+~.()'"!:@]/g` option of `slugify`. -/
def slugifyRemoveSet : List Char :=
  ['*', '+', '~', '.', '(', ')', '\'', '"', '!', ':', '@']

/-- Whitespace trim (JS `String.prototype.trim`, ASCII whitespace). -/
def jsTrim (s : JsStr) : JsStr :=
  ((s.dropWhile Char.isWhitespace).reverse.dropWhile Char.isWhitespace).reverse

/-- Worker for the `slug.replace(/\s+/g, replacement)` step: the flag records
whether we are inside a whitespace run whose `'-'` was already emitted. -/
def collapseWsGo (afterWs : Bool) : JsStr → JsStr
  | [] => []
  | c :: cs =>
    if c.isWhitespace then
      if afterWs then collapseWsGo true cs
      else '-' :: collapseWsGo true cs
    else c :: collapseWsGo false cs

/-- Replace each maximal whitespace run by a single `'-'`
(the `slug.replace(/\s+/g, replacement)` step of `slugify`). -/
def collapseWsToHyphen (s : JsStr) : JsStr :=
  collapseWsGo false s

/-- `slugify(title, {lower: true, strict: true, remove: /[*+~.()'"!:@]/g})`
for ASCII input (the library maps ASCII characters to themselves): remove the
`remove`-set characters, then (strict) remove everything that is not
alphanumeric or whitespace, trim, collapse whitespace runs to `'-'`, and
lowercase. -/
def slugify (title : JsStr) : JsStr :=
  (collapseWsToHyphen
    (jsTrim
      ((title.filter (fun c => ¬ c ∈ slugifyRemoveSet)).filter
        (fun c => c.isAlphanum ∨ c.isWhitespace)))).map Char.toLower

/-- Worker for `split(/\s+/)`: `acc` is the reversed current segment, the
flag records whether we are inside a whitespace (separator) run. -/
def splitWsGo (afterWs : Bool) (acc : JsStr) : JsStr → List JsStr
  | [] => [acc.reverse]
  | c :: cs =>
    if c.isWhitespace then
      if afterWs then splitWsGo true acc cs
      else acc.reverse :: splitWsGo true [] cs
    else splitWsGo false (c :: acc) cs

/-- JS `content.split(/\s+/)`: segments between maximal whitespace runs,
keeping an empty leading/trailing segment when the string starts/ends with
whitespace; `''.split(/\s+/)` is `['']`. -/
def jsSplitWs (s : JsStr) : List JsStr :=
  splitWsGo false [] s

/-- `const wordCount = this.content.split(/\s+/).length`. -/
def wordCount (content : JsStr) : Nat :=
  (jsSplitWs content).length

/-- Post lifecycle status (`status` enum). -/
inductive Status where
  | draft
  | published
  | archived
deriving DecidableEq, Repr

/-- A `Post` document, restricted to the fields the save pipeline and counter
methods read or write.  `slug = []` / `excerpt = []` model the unset (falsy)
state; `publishedAt` is `none` until the publish transition. -/
structure Post where
  idField : Nat
  title : JsStr
  content : JsStr
  slug : JsStr
  excerpt : JsStr
  status : Status
  isPublished : Bool
  publishedAt : Option Nat
  viewCount : Int
  likeCount : Int
  commentCount : Int
  readingTime : Int
deriving DecidableEq, Repr

/-- A freshly constructed `new Post({title, content, ...})` with the schema
defaults (`status: 'draft'`, `isPublished: false`, `publishedAt: null`, all
counters and `readingTime` 0) and the `trim: true` setter applied to the
title. -/
def mkPost (idv : Nat) (title content : JsStr) (status : Status) : Post :=
  { idField := idv
    title := jsTrim title
    content := content
    slug := []
    excerpt := []
    status := status
    isPublished := false
    publishedAt := none
    viewCount := 0
    likeCount := 0
    commentCount := 0
    readingTime := 0 }

/-- The schema validation that `save()` runs before any user pre-save hook:
`title` required with length 5..200, `content` required with length 10..10000,
`excerpt` at most 300.  (Author/category are out of scope.) -/
def validatePost (p : Post) : Bool :=
  5 ≤ p.title.length && p.title.length ≤ 200 &&
  10 ≤ p.content.length && p.content.length ≤ 10000 &&
  p.excerpt.length ≤ 300

/-- `this.isModified(f)` between two saves coincides with the stored value of
`f` differing from the persisted one; for a new document (`prev = none`) the
relevant paths are set and count as modified. -/
def fieldModified (prev : Option Post) (f : Post → Status) (p : Post) : Bool :=
  match prev with
  | none => true
  | some q => f p ≠ f q

def slugModified (prev : Option Post) (p : Post) : Bool :=
  match prev with
  | none => true
  | some q => p.slug ≠ q.slug

/-- First pre-save hook (Post.js lines 119-147): derive `slug` from the title
when unset, derive `excerpt` from the content when unset, recompute
`readingTime` when content is non-empty, and perform the publish transition
when `status` was modified to `'published'` and `publishedAt` is still null. -/
def preSaveDerive (now : Nat) (prev : Option Post) (p : Post) : Post :=
  let p1 := if p.slug = [] ∧ p.title ≠ [] then
      { p with slug := slugify p.title } else p
  let p2 := if p1.excerpt = [] ∧ p1.content ≠ [] then
      { p1 with excerpt := jsTrim (p1.content.take 150) ++ "...".toList } else p1
  let p3 := if p2.content ≠ [] then
      { p2 with readingTime := ((wordCount p2.content : Int) + 199) / 200 } else p2
  if fieldModified prev Post.status p = true ∧ p3.status = .published ∧
      p3.publishedAt = none then
    { p3 with publishedAt := some now, isPublished := true }
  else p3

/-- `Date.now().toString()` digits appended to a colliding slug. -/
def natDigits (n : Nat) : JsStr := (toString n).toList

/-- Second pre-save hook (Post.js lines 150-162): when the slug was modified
and another stored post (different `_id`) already carries it, append
`'-' + Date.now()`. -/
def enforceSlugUniqueness (now : Nat) (db : List Post) (prev : Option Post)
    (p : Post) : Post :=
  if slugModified prev p = true ∧
      (∃ q, q ∈ db ∧ q.slug = p.slug ∧ q.idField ≠ p.idField) then
    { p with slug := p.slug ++ '-' :: natDigits now }
  else p

/-- Replace the stored document with the same id (or insert it). -/
def upsert (db : List Post) (p : Post) : List Post :=
  db.filter (fun q => q.idField ≠ p.idField) ++ [p]

/-- `document.save()`: validation first (mongoose runs `validate()` before
user `pre('save')` hooks; a `ValidationError` aborts the save), then the two
pre-save hooks, then the write.  Returns the stored document and the updated
collection. -/
def savePost (now : Nat) (db : List Post) (prev : Option Post) (p : Post) :
    Except Unit (Post × List Post) :=
  if validatePost p then
    let p1 := preSaveDerive now prev p
    let p2 := enforceSlugUniqueness now db prev p1
    .ok (p2, upsert db p2)
  else
    .error ()

/-- A caller-side mutation between two saves, over the fields the pipeline
works with (`title` goes through the `trim` setter). -/
structure Mutation where
  title : Option JsStr := none
  content : Option JsStr := none
  status : Option Status := none
deriving Repr

def applyMut (m : Mutation) (p : Post) : Post :=
  { p with
    title := match m.title with | none => p.title | some t => jsTrim t
    content := match m.content with | none => p.content | some c => c
    status := match m.status with | none => p.status | some s => s }

/-- A sequence of mutate-then-save steps against the store; a failed
(invalid) save leaves both the store and the persisted document unchanged. -/
def runSaves (steps : List (Mutation × Nat)) (db : List Post) (p : Post) :
    List Post × Post :=
  match steps with
  | [] => (db, p)
  | (m, t) :: rest =>
    match savePost t db (some p) (applyMut m p) with
    | .ok (p', db') => runSaves rest db' p'
    | .error _ => runSaves rest db p

/-- `incrementViewCount` (Post.js lines 165-168). -/
def incrementViewCount (now : Nat) (db : List Post) (prev : Option Post)
    (p : Post) : Except Unit (Post × List Post) :=
  savePost now db prev { p with viewCount := p.viewCount + 1 }

/-- `incrementLikeCount` (Post.js lines 171-174). -/
def incrementLikeCount (now : Nat) (db : List Post) (prev : Option Post)
    (p : Post) : Except Unit (Post × List Post) :=
  savePost now db prev { p with likeCount := p.likeCount + 1 }

/-- `decrementLikeCount` (Post.js lines 177-182): decrement only when
strictly positive. -/
def decrementLikeCount (now : Nat) (db : List Post) (prev : Option Post)
    (p : Post) : Except Unit (Post × List Post) :=
  savePost now db prev
    { p with likeCount := if 0 < p.likeCount then p.likeCount - 1 else p.likeCount }

/-- `incrementCommentCount` (Post.js lines 185-188). -/
def incrementCommentCount (now : Nat) (db : List Post) (prev : Option Post)
    (p : Post) : Except Unit (Post × List Post) :=
  savePost now db prev { p with commentCount := p.commentCount + 1 }

/-- `decrementCommentCount` (Post.js lines 191-196). -/
def decrementCommentCount (now : Nat) (db : List Post) (prev : Option Post)
    (p : Post) : Except Unit (Post × List Post) :=
  savePost now db prev
    { p with commentCount := if 0 < p.commentCount then p.commentCount - 1 else p.commentCount }

/-! ## Pipeline lemmas -/

theorem splitWsGo_length_pos (b : Bool) (acc s : JsStr) :
    0 < (splitWsGo b acc s).length := by
  induction s generalizing b acc with
  | nil => simp [splitWsGo]
  | cons c cs ih =>
    rw [splitWsGo]
    split
    · split
      · exact ih true acc
      · simp
    · exact ih false (c :: acc)

theorem wordCount_pos (s : JsStr) : 1 ≤ wordCount s :=
  splitWsGo_length_pos false [] s

theorem preSaveDerive_idField (now : Nat) (prev : Option Post) (p : Post) :
    (preSaveDerive now prev p).idField = p.idField := by
  cases p; simp only [preSaveDerive]; split_ifs <;> rfl

theorem preSaveDerive_title (now : Nat) (prev : Option Post) (p : Post) :
    (preSaveDerive now prev p).title = p.title := by
  cases p; simp only [preSaveDerive]; split_ifs <;> rfl

theorem preSaveDerive_content (now : Nat) (prev : Option Post) (p : Post) :
    (preSaveDerive now prev p).content = p.content := by
  cases p; simp only [preSaveDerive]; split_ifs <;> rfl

theorem preSaveDerive_status (now : Nat) (prev : Option Post) (p : Post) :
    (preSaveDerive now prev p).status = p.status := by
  cases p; simp only [preSaveDerive]; split_ifs <;> rfl

theorem preSaveDerive_counts (now : Nat) (prev : Option Post) (p : Post) :
    (preSaveDerive now prev p).viewCount = p.viewCount ∧
    (preSaveDerive now prev p).likeCount = p.likeCount ∧
    (preSaveDerive now prev p).commentCount = p.commentCount := by
  cases p; simp only [preSaveDerive]; split_ifs <;> exact ⟨rfl, rfl, rfl⟩

theorem preSaveDerive_slug (now : Nat) (prev : Option Post) (p : Post) :
    (preSaveDerive now prev p).slug =
      if p.slug = [] ∧ p.title ≠ [] then slugify p.title else p.slug := by
  cases p; simp only [preSaveDerive]; split_ifs <;> rfl

theorem preSaveDerive_readingTime (now : Nat) (prev : Option Post) (p : Post) :
    (preSaveDerive now prev p).readingTime =
      if p.content = [] then p.readingTime
      else ((wordCount p.content : Int) + 199) / 200 := by
  cases p; simp only [preSaveDerive]; split_ifs <;> first | rfl | simp_all

theorem preSaveDerive_publishedAt_of_some (now : Nat) (prev : Option Post)
    (p : Post) (d : Nat) (h : p.publishedAt = some d) :
    (preSaveDerive now prev p).publishedAt = some d := by
  cases p; simp only [preSaveDerive]; split_ifs <;> simp_all

theorem preSaveDerive_publish (now : Nat) (prev : Option Post) (p : Post)
    (hmod : fieldModified prev Post.status p = true)
    (hst : p.status = .published) (hpub : p.publishedAt = none) :
    (preSaveDerive now prev p).publishedAt = some now ∧
    (preSaveDerive now prev p).isPublished = true := by
  cases p; simp only [preSaveDerive]; split_ifs <;> simp_all

theorem enforceSlugUniqueness_same (now : Nat) (db : List Post)
    (prev : Option Post) (p : Post) :
    (enforceSlugUniqueness now db prev p).idField = p.idField ∧
    (enforceSlugUniqueness now db prev p).title = p.title ∧
    (enforceSlugUniqueness now db prev p).content = p.content ∧
    (enforceSlugUniqueness now db prev p).status = p.status ∧
    (enforceSlugUniqueness now db prev p).isPublished = p.isPublished ∧
    (enforceSlugUniqueness now db prev p).publishedAt = p.publishedAt ∧
    (enforceSlugUniqueness now db prev p).viewCount = p.viewCount ∧
    (enforceSlugUniqueness now db prev p).likeCount = p.likeCount ∧
    (enforceSlugUniqueness now db prev p).commentCount = p.commentCount ∧
    (enforceSlugUniqueness now db prev p).readingTime = p.readingTime := by
  cases p; simp only [enforceSlugUniqueness]; split_ifs <;>
    exact ⟨rfl, rfl, rfl, rfl, rfl, rfl, rfl, rfl, rfl, rfl⟩

theorem savePost_ok_inv {now : Nat} {db : List Post} {prev : Option Post}
    {p p' : Post} {db' : List Post}
    (h : savePost now db prev p = .ok (p', db')) :
    validatePost p = true ∧
    p' = enforceSlugUniqueness now db prev (preSaveDerive now prev p) ∧
    db' = upsert db (enforceSlugUniqueness now db prev (preSaveDerive now prev p)) := by
  by_cases hv : validatePost p = true
  · rw [savePost, if_pos hv] at h
    injection h with h2
    injection h2 with h3 h4
    exact ⟨hv, h3.symm, h4.symm⟩
  · rw [savePost, if_neg hv] at h
    simp at h

theorem savePost_eq_ok (now : Nat) (db : List Post) (prev : Option Post)
    (p : Post) (hv : validatePost p = true) :
    savePost now db prev p =
      .ok (enforceSlugUniqueness now db prev (preSaveDerive now prev p),
           upsert db (enforceSlugUniqueness now db prev (preSaveDerive now prev p))) := by
  rw [savePost, if_pos hv]

theorem savePost_publishedAt_of_some {now : Nat} {db : List Post}
    {prev : Option Post} {p p' : Post} {db' : List Post} {d : Nat}
    (h : savePost now db prev p = .ok (p', db')) (hd : p.publishedAt = some d) :
    p'.publishedAt = some d := by
  obtain ⟨-, rfl, -⟩ := savePost_ok_inv h
  rw [(enforceSlugUniqueness_same _ _ _ _).2.2.2.2.2.1]
  exact preSaveDerive_publishedAt_of_some _ _ _ _ hd

theorem applyMut_publishedAt (m : Mutation) (p : Post) :
    (applyMut m p).publishedAt = p.publishedAt := by
  cases p; rfl

theorem validatePost_counts (p : Post) (v l cm : Int) :
    validatePost { p with viewCount := v, likeCount := l, commentCount := cm } =
      validatePost p := rfl

theorem savePost_counts (now : Nat) (db : List Post) (prev : Option Post)
    (p : Post) (hv : validatePost p = true) :
    ∃ p' db', savePost now db prev p = .ok (p', db') ∧
      p'.viewCount = p.viewCount ∧ p'.likeCount = p.likeCount ∧
      p'.commentCount = p.commentCount := by
  refine ⟨_, _, savePost_eq_ok now db prev p hv, ?_, ?_, ?_⟩
  · rw [(enforceSlugUniqueness_same now db prev _).2.2.2.2.2.2.1,
        (preSaveDerive_counts now prev p).1]
  · rw [(enforceSlugUniqueness_same now db prev _).2.2.2.2.2.2.2.1,
        (preSaveDerive_counts now prev p).2.1]
  · rw [(enforceSlugUniqueness_same now db prev _).2.2.2.2.2.2.2.2.1,
        (preSaveDerive_counts now prev p).2.2]

/-! ## Concrete documents and tokens used by the claim theorems -/

def okPost (r : Except Unit (Post × List Post)) (fallback : Post) : Post :=
  match r with | .ok (p, _) => p | .error _ => fallback

def okDb (r : Except Unit (Post × List Post)) (fallback : List Post) : List Post :=
  match r with | .ok (_, db) => db | .error _ => fallback

/-- The payload of a valid token for subject `"u1"`. -/
def subjClaims : JwtClaims :=
  { id := some "u1"
    email := some "test@example.com"
    username := some "testuser"
    role := some "user"
    iat := some 0
    exp := some 604800
    iss := some "mern-testing-app"
    aud := some "mern-testing-users" }

/-- A correctly signed token for subject `"u1"`. -/
def subjToken : SignedToken := { claims := subjClaims, secret := jwtSecret }

/-- A token-string environment in which the string `"sometoken"` parses to
`subjToken` and everything else is garbage. -/
def subjDecode : JsStr → Option SignedToken := fun s =>
  if s = "sometoken".toList then some subjToken else none

/-- The stored user `"u1"`, deactivated. -/
def inactiveUser : DbUser :=
  { _idField := "u1"
    email := "test@example.com"
    username := "testuser"
    role := "user"
    isActive := false }

/-! ## Claim theorems -/

/-- **C1.** The claim states that every authentication failure — including
"no principal found" and "principal deactivated" — produces the identical
generic 401 body `{error: "Authentication failed"}`.  The code instead
returns the distinguishing bodies `'User not found'` and
`'User account is deactivated'` for the two principal-lookup failures
(middleware/auth.js lines 20-27), contradicting the repository's own tests
(`authMiddleware.test.js`, which expect the generic body for exactly these
two inputs).  This theorem evaluates the middleware at the two failing
inputs: a valid token whose subject is absent from the user store, and the
same token with the stored principal deactivated. -/
theorem c1_authenticate_distinguishes_lookup_failures :
    authenticate subjDecode 500 [] (some ("Bearer sometoken".toList)) =
      .reject 401 "User not found" ∧
    authenticate subjDecode 500 [inactiveUser] (some ("Bearer sometoken".toList)) =
      .reject 401 "User account is deactivated" ∧
    ("User not found" : String) ≠ "Authentication failed" ∧
    ("User account is deactivated" : String) ≠ "Authentication failed" := by
  refine ⟨by decide, by decide, by decide, by decide⟩

/-- **C2.** The claim states that `refresh(token)` preserves all identity
claims.  The code decodes the old token, strips the temporal claims and calls
`generateToken` on the rest-object — but `generateToken` builds its payload
from `user._id`, while the rest-object carries the subject under `id`
(auth.js lines 14-15 and 138-140).  The refreshed token therefore has *no*
`id` claim, contradicting the repository's own test
(`authUtils.test` — `'should generate new token with same payload'` expects
`newDecoded.id` to equal `originalDecoded.id`).  This theorem evaluates the
code on a freshly issued token: the original carries `id = "u1"`, the
refreshed token's `id` claim is absent. -/
theorem c2_refreshToken_drops_id_claim :
    (generateToken { _idField := some "u1", idField := none,
                     email := some "test@example.com", username := some "testuser",
                     role := some "user" } 1000).claims.id = some "u1" ∧
    (refreshToken
        (some (generateToken { _idField := some "u1", idField := none,
                               email := some "test@example.com", username := some "testuser",
                               role := some "user" } 1000)) 2000).map
      (fun t => t.claims.id) = .ok none := by
  exact ⟨rfl, rfl⟩

/-- **C4.** Issue/verify round-trip: for every claims object and issuance
time, verifying the token issued by `generateToken` succeeds and the returned
payload's `id`, `email`, `username` and `role` fields are exactly the issued
identity claims. -/
theorem c4_verify_issue_roundtrip (u : UserArg) (now : Nat) :
    verifyToken (generateToken u now) now = .ok (generateToken u now).claims ∧
    (generateToken u now).claims.id = u._idField ∧
    (generateToken u now).claims.email = u.email ∧
    (generateToken u now).claims.username = u.username ∧
    (generateToken u now).claims.role = u.role := by
  refine ⟨?_, rfl, rfl, rfl, rfl⟩
  rw [verifyToken, if_pos]
  refine ⟨rfl, ?_⟩
  intro e he
  simp [generateToken, jwtExpiresInSec] at he
  omega

/-- **C6.** `isTokenExpired` is fail-closed: it returns `true` whenever the
token does not decode or the decoded payload lacks an `exp` claim; otherwise
(at any positive clock value) it returns `true` exactly when the expiry is in
the past. -/
theorem c6_isTokenExpired_fail_closed (tok : JwtInput) (now : Nat) (hnow : 0 < now) :
    (jwtDecode tok = none → isTokenExpired tok now = true) ∧
    (∀ d, jwtDecode tok = some d → d.exp = none → isTokenExpired tok now = true) ∧
    (∀ d e, jwtDecode tok = some d → d.exp = some e →
      (isTokenExpired tok now = true ↔ e < now)) := by
  refine ⟨?_, ?_, ?_⟩
  · intro h
    cases tok with
    | none => rfl
    | some t => simp [jwtDecode] at h
  · intro d hd hexp
    cases tok with
    | none => rfl
    | some t =>
      simp only [jwtDecode, Option.map_some'] at hd
      cases hd
      simp [isTokenExpired, jwtDecode, hexp]
  · intro d e hd he
    cases tok with
    | none => simp [jwtDecode] at hd
    | some t =>
      simp only [jwtDecode, Option.map_some'] at hd
      cases hd
      by_cases he0 : e = 0
      · subst he0
        simp [isTokenExpired, jwtDecode, he]
        omega
      · simp [isTokenExpired, jwtDecode, he, he0]

/-- Witness for C6: concrete application at a garbage token and clock 1. -/
theorem c6_isTokenExpired_fail_closed_witness :
    0 < 1 ∧ (jwtDecode none = none → isTokenExpired none 1 = true) :=
  ⟨by decide, (c6_isTokenExpired_fail_closed none 1 (by decide)).1⟩

theorem bearer_space_toList : "Bearer ".toList = "Bearer".toList ++ [' '] := by decide

theorem extract_ok_iff (s t : JsStr) :
    extractTokenFromHeader (some s) = .ok t ↔
      s = "Bearer ".toList ++ t ∧ ' ' ∉ t := by
  cases s with
  | nil =>
    constructor
    · intro hok; simp [extractTokenFromHeader] at hok
    · rintro ⟨h, -⟩
      have hlen := congrArg List.length h
      rw [List.length_append, show ("Bearer ".toList).length = 7 from by decide] at hlen
      simp only [List.length_nil] at hlen
      omega
  | cons c cs =>
    show (match jsSplit ' ' (c :: cs) with
      | [p0, p1] => if p0 = "Bearer".toList then Except.ok p1
          else Except.error HeaderError.malformedHeader
      | _ => Except.error HeaderError.malformedHeader) = .ok t ↔ _
    constructor
    · intro hok
      rcases hL : jsSplit ' ' (c :: cs) with _ | ⟨p0, _ | ⟨p1, _ | ⟨p2, rest⟩⟩⟩ <;>
        rw [hL] at hok
      · simp at hok
      · simp at hok
      · have hok2 : (if p0 = "Bearer".toList then Except.ok p1
            else Except.error HeaderError.malformedHeader) = Except.ok t := hok
        by_cases hB : p0 = "Bearer".toList
        · rw [if_pos hB] at hok2
          injection hok2 with h1
          subst hB
          rw [← h1]
          obtain ⟨heq, -, hnt⟩ := (jsSplit_pair_iff ' ' (c :: cs) _ p1).mp hL
          refine ⟨?_, hnt⟩
          rw [bearer_space_toList, List.append_assoc]
          exact heq
        · rw [if_neg hB] at hok2
          simp at hok2
      · simp at hok
    · rintro ⟨heq, hnt⟩
      have hpair : jsSplit ' ' (c :: cs) = ["Bearer".toList, t] := by
        rw [jsSplit_pair_iff]
        refine ⟨?_, by decide, hnt⟩
        rw [heq, bearer_space_toList, List.append_assoc]
        rfl
      rw [hpair]
      simp

theorem extract_missing_iff (h : Option JsStr) :
    extractTokenFromHeader h = .error .missingHeader ↔ (h = none ∨ h = some []) := by
  cases h with
  | none => simp [extractTokenFromHeader]
  | some s =>
    cases s with
    | nil => simp [extractTokenFromHeader]
    | cons c cs =>
      constructor
      · intro hcontr
        exfalso
        rw [show extractTokenFromHeader (some (c :: cs)) =
            (match jsSplit ' ' (c :: cs) with
             | [p0, p1] => if p0 = "Bearer".toList then Except.ok p1
                 else Except.error HeaderError.malformedHeader
             | _ => Except.error HeaderError.malformedHeader) from rfl] at hcontr
        rcases hL : jsSplit ' ' (c :: cs) with _ | ⟨p0, _ | ⟨p1, _ | ⟨p2, rest⟩⟩⟩ <;>
          rw [hL] at hcontr
        · simp at hcontr
        · simp at hcontr
        · have hcontr2 : (if p0 = "Bearer".toList then Except.ok p1
              else Except.error HeaderError.malformedHeader) =
              Except.error HeaderError.missingHeader := hcontr
          by_cases hB : p0 = "Bearer".toList
          · rw [if_pos hB] at hcontr2; simp at hcontr2
          · rw [if_neg hB] at hcontr2; simp at hcontr2
        · simp at hcontr
      · rintro (h | h) <;> simp at h

/-- **C5.** `extractTokenFromHeader` returns a token `t` exactly when the
header is literally `"Bearer " ++ t` with `t` containing no space (the exact
two-segment form, `t` itself possibly empty); an absent or empty header is
the missing-header error, and every other present header is the
malformed-header error. -/
theorem c5_extractTokenFromHeader_spec (h : Option JsStr) :
    (∀ t, extractTokenFromHeader h = .ok t ↔
        h = some ("Bearer ".toList ++ t) ∧ ' ' ∉ t) ∧
    (extractTokenFromHeader h = .error .missingHeader ↔ (h = none ∨ h = some [])) ∧
    (∀ s, h = some s → s ≠ [] → (¬ ∃ t, s = "Bearer ".toList ++ t ∧ ' ' ∉ t) →
      extractTokenFromHeader h = .error .malformedHeader) := by
  refine ⟨?_, extract_missing_iff h, ?_⟩
  · intro t
    cases h with
    | none => simp [extractTokenFromHeader]
    | some s =>
      rw [extract_ok_iff s t]
      simp
  · rintro s rfl hne hnex
    rcases hr : extractTokenFromHeader (some s) with e | t2
    · cases e with
      | missingHeader =>
        rcases (extract_missing_iff (some s)).mp hr with h1 | h1
        · cases h1
        · exact absurd (by injection h1) hne
      | malformedHeader => rfl
    · obtain ⟨heq, hnt⟩ := (extract_ok_iff s t2).mp hr
      exact absurd ⟨t2, heq, hnt⟩ hnex

/-- Witness for C5: the three behaviours at concrete headers. -/
theorem c5_extractTokenFromHeader_spec_witness :
    extractTokenFromHeader (some ("Bearer abc".toList)) = .ok ("abc".toList) ∧
    extractTokenFromHeader none = .error .missingHeader ∧
    extractTokenFromHeader (some ("Bearer".toList)) = .error .malformedHeader := by
  refine ⟨?_, ?_, ?_⟩
  · exact ((c5_extractTokenFromHeader_spec (some ("Bearer abc".toList))).1
      ("abc".toList)).mpr ⟨by decide, by decide⟩
  · exact (c5_extractTokenFromHeader_spec none).2.1.mpr (Or.inl rfl)
  · refine (c5_extractTokenFromHeader_spec (some ("Bearer".toList))).2.2
      ("Bearer".toList) rfl (by decide) ?_
    rintro ⟨t, ht, -⟩
    have hlen := congrArg List.length ht
    rw [List.length_append] at hlen
    have h6 : ("Bearer".toList).length = 6 := by decide
    have h7 : ("Bearer ".toList).length = 7 := by decide
    rw [h6, h7] at hlen
    omega

theorem validate_title_ne_nil {p : Post} (hv : validatePost p = true) :
    p.title ≠ [] := by
  intro h0
  rw [validatePost, h0] at hv
  simp at hv

/-- A draft post as created by a handler. -/
def c3base : Post :=
  mkPost 1 "Hello World Post".toList "This is some test content here.".toList .draft

/-- `c3base` after its creating save. -/
def c3afterCreate : Post := okPost (savePost 10 [] none c3base) c3base

/-- `c3afterCreate` after a save that sets `status := published`. -/
def c3published : Post :=
  okPost (savePost 20 [c3afterCreate] (some c3afterCreate)
    { c3afterCreate with status := .published }) c3afterCreate

/-- `c3published` after a save that sets `status := draft` again. -/
def c3unpublished : Post :=
  okPost (savePost 30 [c3published] (some c3published)
    { c3published with status := .draft }) c3published

/-- **C3 (amended).** Once `publishedAt` is non-null it is preserved by every
further save (single saves and arbitrary mutate-then-save sequences), and a
save that changes `status` into `published` while `publishedAt` is unset sets
`publishedAt = now` and `isPublished = true`.  (The original claim's "after
every save `isPublished` is true exactly when `status == published`" is
refuted by the counterexample: the hook never resets `isPublished` when
`status` leaves `published`.) -/
theorem c3_publishedAt_monotone_and_transition :
    (∀ now db prev p p' db' d, savePost now db prev p = .ok (p', db') →
        p.publishedAt = some d → p'.publishedAt = some d) ∧
    (∀ steps db p d, p.publishedAt = some d →
        ((runSaves steps db p).2).publishedAt = some d) ∧
    (∀ now db q p p' db', savePost now db (some q) p = .ok (p', db') →
        q.status ≠ p.status → p.status = .published → p.publishedAt = none →
        p'.publishedAt = some now ∧ p'.isPublished = true) := by
  have mono : ∀ now db prev p p' db' d, savePost now db prev p = .ok (p', db') →
      p.publishedAt = some d → p'.publishedAt = some d :=
    fun now db prev p p' db' d h hd => savePost_publishedAt_of_some h hd
  refine ⟨mono, ?_, ?_⟩
  · intro steps
    induction steps with
    | nil => intro db p d h; exact h
    | cons step rest ih =>
      intro db p d h
      obtain ⟨m, t⟩ := step
      rw [runSaves]
      cases hs : savePost t db (some p) (applyMut m p) with
      | ok pr =>
        obtain ⟨p', db'⟩ := pr
        exact ih db' p' d
          (mono _ _ _ _ _ _ _ hs (by rw [applyMut_publishedAt]; exact h))
      | error e => exact ih db p d h
  · intro now db q p p' db' h hmod hst hpub
    obtain ⟨-, rfl, -⟩ := savePost_ok_inv h
    have hm : fieldModified (some q) Post.status p = true := by
      simp only [fieldModified, ne_eq, decide_not, Bool.not_eq_true',
        decide_eq_false_iff_not]
      exact fun hc => hmod hc.symm
    constructor
    · rw [(enforceSlugUniqueness_same _ _ _ _).2.2.2.2.2.1]
      exact (preSaveDerive_publish now (some q) p hm hst hpub).1
    · rw [(enforceSlugUniqueness_same _ _ _ _).2.2.2.2.1]
      exact (preSaveDerive_publish now (some q) p hm hst hpub).2

/-- Witness for C3: the concrete publish transition at time 20. -/
theorem c3_publishedAt_witness :
    savePost 20 [c3afterCreate] (some c3afterCreate)
      { c3afterCreate with status := .published } = .ok (c3published, [c3published]) ∧
    c3afterCreate.status ≠ ({ c3afterCreate with status := .published } : Post).status ∧
    c3published.publishedAt = some 20 ∧ c3published.isPublished = true := by
  refine ⟨by decide, by decide, ?_⟩
  exact c3_publishedAt_monotone_and_transition.2.2 20 [c3afterCreate] c3afterCreate
    { c3afterCreate with status := .published } c3published [c3published]
    (by decide) (by decide) (by decide) (by decide)

/-- Counterexample to C3 as stated: publishing at time 20 and reverting to
draft at time 30 leaves `isPublished = true` with `status = draft`, so after
the third save `isPublished` is *not* `true` exactly when
`status == published`. -/
theorem c3_counterexample_isPublished_stale :
    savePost 10 [] none c3base = .ok (c3afterCreate, [c3afterCreate]) ∧
    savePost 20 [c3afterCreate] (some c3afterCreate)
      { c3afterCreate with status := .published } = .ok (c3published, [c3published]) ∧
    savePost 30 [c3published] (some c3published)
      { c3published with status := .draft } = .ok (c3unpublished, [c3unpublished]) ∧
    c3unpublished.status = .draft ∧ c3unpublished.isPublished = true ∧
    ¬(c3unpublished.isPublished = true ↔ c3unpublished.status = .published) := by
  exact ⟨by decide, by decide, by decide, by decide, by decide, by decide⟩

/-- 400 words separated by single spaces. -/
def spacedWords : Nat → JsStr
  | 0 => []
  | 1 => ['w']
  | n + 2 => 'w' :: ' ' :: spacedWords (n + 1)

def c7post : Post :=
  mkPost 7 "Reading Time Post".toList "hello world contents".toList .draft

def c7saved : Post := okPost (savePost 0 [] none c7post) c7post

/-- **C7.** Every successful save with non-empty content recomputes
`readingTime` as `ceil(wordCount(content) / 200)`, which is at least 1; a
save with empty content fails schema validation (content is required with
`minlength` 10) and a freshly constructed entity carries the default
`readingTime = 0`; 400 space-separated words give `wordCount = 400`, hence
`readingTime = ceil(400/200) = 2`. -/
theorem c7_readingTime_spec :
    (∀ now db prev p p' db', savePost now db prev p = .ok (p', db') →
        p.content ≠ [] →
        p'.readingTime = ((wordCount p.content : Int) + 199) / 200 ∧
        1 ≤ p'.readingTime) ∧
    (∀ now db prev p, p.content = [] → savePost now db prev p = .error ()) ∧
    (∀ idv t st, (mkPost idv t [] st).readingTime = 0) ∧
    wordCount (spacedWords 400) = 400 ∧ ((400 : Int) + 199) / 200 = 2 := by
  refine ⟨?_, ?_, ?_, by decide, by decide⟩
  · intro now db prev p p' db' h hc
    obtain ⟨-, rfl, -⟩ := savePost_ok_inv h
    rw [(enforceSlugUniqueness_same _ _ _ _).2.2.2.2.2.2.2.2.2,
      preSaveDerive_readingTime, if_neg hc]
    refine ⟨rfl, ?_⟩
    have h1 : (1 : Int) ≤ (wordCount p.content : Int) := by
      exact_mod_cast wordCount_pos p.content
    omega
  · intro now db prev p hc
    have hv : validatePost p = false := by
      simp [validatePost, hc]
    rw [savePost, if_neg (by simp [hv])]
  · intro idv t st; rfl

/-- Witness for C7: the recomputation at a concrete three-word post. -/
theorem c7_readingTime_witness :
    savePost 0 [] none c7post = .ok (c7saved, [c7saved]) ∧ c7post.content ≠ [] ∧
    (c7saved.readingTime = ((wordCount c7post.content : Int) + 199) / 200 ∧
      1 ≤ c7saved.readingTime) := by
  exact ⟨by decide, by decide,
    c7_readingTime_spec.1 0 [] none c7post c7saved [c7saved] (by decide) (by decide)⟩

def c8post : Post :=
  mkPost 8 "Counter Post Title".toList "counter content body".toList .draft

/-- **C8.** Each counter method of a (valid) entity persists successfully,
changes only its own counter, keeps all three counters non-negative whenever
they were non-negative, and the two decrements saturate at zero (an entity
with a zero count keeps count zero, with no error). -/
theorem c8_counters (now : Nat) (db : List Post) (prev : Option Post) (p : Post)
    (hv : validatePost p = true) (h0v : 0 ≤ p.viewCount) (h0l : 0 ≤ p.likeCount)
    (h0c : 0 ≤ p.commentCount) :
    (∃ p' db', incrementViewCount now db prev p = .ok (p', db') ∧
       p'.viewCount = p.viewCount + 1 ∧ p'.likeCount = p.likeCount ∧
       p'.commentCount = p.commentCount ∧
       0 ≤ p'.viewCount ∧ 0 ≤ p'.likeCount ∧ 0 ≤ p'.commentCount) ∧
    (∃ p' db', incrementLikeCount now db prev p = .ok (p', db') ∧
       p'.likeCount = p.likeCount + 1 ∧ p'.viewCount = p.viewCount ∧
       p'.commentCount = p.commentCount ∧
       0 ≤ p'.viewCount ∧ 0 ≤ p'.likeCount ∧ 0 ≤ p'.commentCount) ∧
    (∃ p' db', decrementLikeCount now db prev p = .ok (p', db') ∧
       p'.likeCount = (if 0 < p.likeCount then p.likeCount - 1 else p.likeCount) ∧
       p'.viewCount = p.viewCount ∧ p'.commentCount = p.commentCount ∧
       0 ≤ p'.viewCount ∧ 0 ≤ p'.likeCount ∧ 0 ≤ p'.commentCount ∧
       (p.likeCount = 0 → p'.likeCount = 0)) ∧
    (∃ p' db', incrementCommentCount now db prev p = .ok (p', db') ∧
       p'.commentCount = p.commentCount + 1 ∧ p'.viewCount = p.viewCount ∧
       p'.likeCount = p.likeCount ∧
       0 ≤ p'.viewCount ∧ 0 ≤ p'.likeCount ∧ 0 ≤ p'.commentCount) ∧
    (∃ p' db', decrementCommentCount now db prev p = .ok (p', db') ∧
       p'.commentCount = (if 0 < p.commentCount then p.commentCount - 1
         else p.commentCount) ∧
       p'.viewCount = p.viewCount ∧ p'.likeCount = p.likeCount ∧
       0 ≤ p'.viewCount ∧ 0 ≤ p'.likeCount ∧ 0 ≤ p'.commentCount ∧
       (p.commentCount = 0 → p'.commentCount = 0)) := by
  refine ⟨?_, ?_, ?_, ?_, ?_⟩
  · obtain ⟨p', db', hok, h1, h2, h3⟩ := savePost_counts now db prev
      { p with viewCount := p.viewCount + 1 } hv
    have h1' : p'.viewCount = p.viewCount + 1 := by simpa using h1
    have h2' : p'.likeCount = p.likeCount := by simpa using h2
    have h3' : p'.commentCount = p.commentCount := by simpa using h3
    exact ⟨p', db', hok, h1', h2', h3', by omega, by omega, by omega⟩
  · obtain ⟨p', db', hok, h1, h2, h3⟩ := savePost_counts now db prev
      { p with likeCount := p.likeCount + 1 } hv
    have h1' : p'.viewCount = p.viewCount := by simpa using h1
    have h2' : p'.likeCount = p.likeCount + 1 := by simpa using h2
    have h3' : p'.commentCount = p.commentCount := by simpa using h3
    exact ⟨p', db', hok, h2', h1', h3', by omega, by omega, by omega⟩
  · obtain ⟨p', db', hok, h1, h2, h3⟩ := savePost_counts now db prev
      { p with likeCount := if 0 < p.likeCount then p.likeCount - 1
          else p.likeCount } hv
    have h1' : p'.viewCount = p.viewCount := by simpa using h1
    have h2' : p'.likeCount =
        (if 0 < p.likeCount then p.likeCount - 1 else p.likeCount) := by
      simpa using h2
    have h3' : p'.commentCount = p.commentCount := by simpa using h3
    refine ⟨p', db', hok, h2', h1', h3', by omega, ?_, by omega, ?_⟩
    · rw [h2']; split_ifs with hpos <;> omega
    · intro hz; rw [h2', hz]; simp
  · obtain ⟨p', db', hok, h1, h2, h3⟩ := savePost_counts now db prev
      { p with commentCount := p.commentCount + 1 } hv
    have h1' : p'.viewCount = p.viewCount := by simpa using h1
    have h2' : p'.likeCount = p.likeCount := by simpa using h2
    have h3' : p'.commentCount = p.commentCount + 1 := by simpa using h3
    exact ⟨p', db', hok, h3', h1', h2', by omega, by omega, by omega⟩
  · obtain ⟨p', db', hok, h1, h2, h3⟩ := savePost_counts now db prev
      { p with commentCount := if 0 < p.commentCount then p.commentCount - 1
          else p.commentCount } hv
    have h1' : p'.viewCount = p.viewCount := by simpa using h1
    have h2' : p'.likeCount = p.likeCount := by simpa using h2
    have h3' : p'.commentCount =
        (if 0 < p.commentCount then p.commentCount - 1 else p.commentCount) := by
      simpa using h3
    refine ⟨p', db', hok, h3', h1', h2', by omega, by omega, ?_, ?_⟩
    · rw [h3']; split_ifs with hpos <;> omega
    · intro hz; rw [h3', hz]; simp

/-- Witness for C8: saturation at zero on a concrete fresh entity. -/
theorem c8_counters_witness :
    validatePost c8post = true ∧ (0 : Int) ≤ c8post.viewCount ∧
    (0 : Int) ≤ c8post.likeCount ∧ (0 : Int) ≤ c8post.commentCount ∧
    c8post.likeCount = 0 ∧
    (∃ p' db', decrementLikeCount 0 [] none c8post = .ok (p', db') ∧
      p'.likeCount = 0) := by
  refine ⟨by decide, by decide, by decide, by decide, by decide, ?_⟩
  obtain ⟨-, -, ⟨p', db', hok, -, -, -, -, -, -, hz⟩, -, -⟩ :=
    c8_counters 0 [] none c8post (by decide) (by decide) (by decide) (by decide)
  exact ⟨p', db', hok, hz (by decide)⟩

/-- **C9 (amended).** Two fresh entities with the same title (and no
pre-supplied slug, distinct ids, both passing validation) saved one after the
other get distinct slugs, the second carrying the `'-' ++ timestamp`
disambiguator — *provided* the shared title slugifies to a non-empty base
slug.  (The original claim's "non-empty" part fails for titles that slugify
to the empty string, see the counterexample.) -/
theorem c9_duplicate_title_distinct_slugs (p q : Post) (hT : q.title = p.title)
    (hps : p.slug = []) (hqs : q.slug = []) (hid : q.idField ≠ p.idField)
    (hne : slugify p.title ≠ []) (hvp : validatePost p = true)
    (hvq : validatePost q = true) (t1 t2 : Nat) :
    ∃ p' db1 q' db2,
      savePost t1 [] none p = .ok (p', db1) ∧
      savePost t2 db1 none q = .ok (q', db2) ∧
      p'.slug = slugify p.title ∧
      q'.slug = slugify p.title ++ '-' :: natDigits t2 ∧
      p'.slug ≠ [] ∧ q'.slug ≠ [] ∧ p'.slug ≠ q'.slug := by
  have htp : p.title ≠ [] := validate_title_ne_nil hvp
  have htq : q.title ≠ [] := hT ▸ htp
  -- first save
  have hder1 : (preSaveDerive t1 none p).slug = slugify p.title := by
    rw [preSaveDerive_slug, if_pos ⟨hps, htp⟩]
  have henf1 : enforceSlugUniqueness t1 [] none (preSaveDerive t1 none p) =
      preSaveDerive t1 none p := by
    rw [enforceSlugUniqueness, if_neg]
    rintro ⟨-, x, hx, -⟩
    exact absurd hx (List.not_mem_nil x)
  have hA := savePost_eq_ok t1 [] none p hvp
  rw [henf1] at hA
  set A := preSaveDerive t1 none p with hAdef
  have hup1 : upsert [] A = [A] := rfl
  rw [hup1] at hA
  have hAid : A.idField = p.idField := preSaveDerive_idField t1 none p
  -- second save
  have hder2 : (preSaveDerive t2 none q).slug = slugify p.title := by
    rw [preSaveDerive_slug, if_pos ⟨hqs, htq⟩, hT]
  have hder2id : (preSaveDerive t2 none q).idField = q.idField :=
    preSaveDerive_idField t2 none q
  have henf2 : enforceSlugUniqueness t2 [A] none (preSaveDerive t2 none q) =
      { preSaveDerive t2 none q with
        slug := (preSaveDerive t2 none q).slug ++ '-' :: natDigits t2 } := by
    rw [enforceSlugUniqueness, if_pos]
    refine ⟨rfl, A, List.mem_singleton.mpr rfl, ?_, ?_⟩
    · rw [hder1, hder2]
    · rw [hAid, hder2id]
      exact fun hc => hid hc.symm
  have hB := savePost_eq_ok t2 [A] none q hvq
  rw [henf2] at hB
  refine ⟨A, [A], _, _, hA, hB, hder1, ?_, hder1 ▸ hne, ?_, ?_⟩
  · show ({ preSaveDerive t2 none q with
      slug := (preSaveDerive t2 none q).slug ++ '-' :: natDigits t2 } : Post).slug =
      slugify p.title ++ '-' :: natDigits t2
    rw [show ∀ r : Post, ∀ s : JsStr, ({ r with slug := s } : Post).slug = s from
      fun r s => rfl, hder2]
  · show ({ preSaveDerive t2 none q with
      slug := (preSaveDerive t2 none q).slug ++ '-' :: natDigits t2 } : Post).slug ≠ []
    rw [show ∀ r : Post, ∀ s : JsStr, ({ r with slug := s } : Post).slug = s from
      fun r s => rfl]
    simp
  · rw [hder1]
    show slugify p.title ≠ ({ preSaveDerive t2 none q with
      slug := (preSaveDerive t2 none q).slug ++ '-' :: natDigits t2 } : Post).slug
    rw [show ∀ r : Post, ∀ s : JsStr, ({ r with slug := s } : Post).slug = s from
      fun r s => rfl, hder2]
    intro heq
    have hlen := congrArg List.length heq
    rw [List.length_append, List.length_cons] at hlen
    omega

def c9wA : Post :=
  mkPost 1 "Test Post".toList "This is a test post content.".toList .draft

def c9wB : Post :=
  mkPost 2 "Test Post".toList "This is another test post content.".toList .draft

/-- Witness for C9: the two concrete `"Test Post"` saves. -/
theorem c9_duplicate_title_witness :
    ∃ p' db1 q' db2,
      savePost 100 [] none c9wA = .ok (p', db1) ∧
      savePost 200 db1 none c9wB = .ok (q', db2) ∧
      p'.slug = slugify c9wA.title ∧
      q'.slug = slugify c9wA.title ++ '-' :: natDigits 200 ∧
      p'.slug ≠ [] ∧ q'.slug ≠ [] ∧ p'.slug ≠ q'.slug :=
  c9_duplicate_title_distinct_slugs c9wA c9wB (by decide) (by decide) (by decide)
    (by decide) (by decide) (by decide) (by decide) 100 200

def c9badA : Post :=
  mkPost 1 "!!!!!".toList "punctuation only title".toList .draft

def c9badB : Post :=
  mkPost 2 "!!!!!".toList "another posting body!!".toList .draft

def c9badASaved : Post := okPost (savePost 100 [] none c9badA) c9badA

def c9badBSaved : Post := okPost (savePost 200 [c9badASaved] none c9badB) c9badB

/-- Counterexample to C9 as stated: the title `"!!!!!"` (five characters, so
it passes validation) slugifies to the empty string, so the first of two
entities sharing it is committed with an *empty* slug — the claim promises
two non-empty slugs for every identical-title pair. -/
theorem c9_counterexample_empty_slug :
    savePost 100 [] none c9badA = .ok (c9badASaved, [c9badASaved]) ∧
    savePost 200 [c9badASaved] none c9badB =
      .ok (c9badBSaved, [c9badASaved, c9badBSaved]) ∧
    c9badASaved.slug = [] := by
  exact ⟨by decide, by decide, by decide⟩

/-- **C10.** `authorize` with its JS default argument (the empty role array)
rejects every authenticated principal — whatever its role, including
`"admin"` — with 403 `{error: "Insufficient permissions"}` and never calls
the downstream handler. -/
theorem c10_authorize_empty_roles_denies_all (u : DbUser) :
    authorize (.many []) (some u) = .reject 403 "Insufficient permissions" := by
  simp [authorize]

end MernAuth
